import Mathlib

/-! ## Definitions: the shallow embedding and concrete fixtures -/

/-- JS `Array.prototype` / `String.prototype.split` on a separator
character, at the level of character lists: splitting the empty list
yields one empty field, and every occurrence of the separator starts a
new field. -/
def splitListChar (sep : Char) : List Char → List (List Char)
  | [] => [[]]
  | c :: rest =>
    if c = sep then [] :: splitListChar sep rest
    else
      match splitListChar sep rest with
      | [] => [[c]]
      | h :: t => (c :: h) :: t

/-- JS `str.split(sep)` for a one-character separator. -/
def jsSplit (sep : Char) (str : String) : List String :=
  (splitListChar sep str.data).map String.mk

/-- JS `Array.prototype.join(sep)`. -/
def jsJoin (sep : String) : List String → String
  | [] => ""
  | [x] => x
  | x :: rest => x ++ sep ++ jsJoin sep rest

/-- JS `String.prototype.substr(2)`: drop the first two characters.
The source only applies it to strings whose first two characters are
plain ASCII, so counting characters instead of UTF-16 code units is
faithful. -/
def jsSubstr2 (s : String) : String :=
  String.mk (s.data.drop 2)

/-- WHATWG URL object, as far as the source observes it: scheme (without
the trailing colon), hostname, port (empty string when absent),
pathname, and the decoded search parameters in order. -/
structure Url where
  protocol : String
  hostname : String
  port : String
  pathname : String
  searchParams : List (String × String)
deriving DecidableEq, Repr

/-- JS `url.host`: hostname plus the port when one is present. -/
def Url.host (u : Url) : String :=
  if u.port = "" then u.hostname else u.hostname ++ ":" ++ u.port

/-- Serialization of the query string: the parameters joined as
key=value pairs with ampersands, exactly the string the source builds
and assigns to `url.search`. -/
def Url.searchString (u : Url) : String :=
  jsJoin "&" (u.searchParams.map (fun p => p.1 ++ "=" ++ p.2))

/-- JS `url.toString()` for the URLs this module builds:
scheme://host/path and the query string when it is non-empty. -/
def Url.toString (u : Url) : String :=
  u.protocol ++ "://" ++ u.host ++ u.pathname ++
    (if u.searchString = "" then "" else "?" ++ u.searchString)

/-- JS `url.searchParams.get(key)`: the first value bound to the key, or
null (`none`) when the key is absent. -/
def Url.getParam (u : Url) (key : String) : Option String :=
  (u.searchParams.find? (fun p => p.1 == key)).map (fun p => p.2)

/-- HTTP response as the source observes it: status code, status text
and the body bytes. -/
structure HttpResponse where
  status : Nat
  statusText : String
  body : List Nat
deriving DecidableEq, Repr

/-- Fetch-spec `response.ok`: status in the inclusive range 200–299. -/
def HttpResponse.ok (r : HttpResponse) : Bool :=
  200 ≤ r.status && r.status ≤ 299

/-- Outcome of a `fetch` call: a response, or a transport-level
exception carrying its rendering. -/
inductive FetchOutcome where
  | success (response : HttpResponse)
  | failure (err : String)
deriving DecidableEq

/-- Errors thrown by this module: `NotFoundError` versus a plain
`Error`, each carrying its message. -/
inductive ReadError where
  | notFound (message : String)
  | generic (message : String)
deriving DecidableEq, Repr

/-- Message carried by an error, whichever constructor produced it. -/
def ReadError.message : ReadError → String
  | .notFound m => m
  | .generic m => m

/-- Validation predicate of `AzureUrlReader.buildRawUrl` (the disjunction guarding the
throw of "Wrong Azure Devops URL or Invalid file path").  JS array
destructuring of a short array yields undefined, and undefined compares
unequal to every string, hence the `Option String` segments: a strict
equality test against a string only fires on `some`. -/
def azureUrlInvalid (target : Url) (segs : List String) (path : String)
    (ref : Option String) : Bool :=
  target.hostname != "dev.azure.com" ||
  segs[0]? != some "" ||
  segs[1]? == some "" ||
  segs[2]? == some "" ||
  segs[3]? != some "_git" ||
  segs[4]? == some "" ||
  path == "" ||
  ref == some ""

/-- AzureUrlReader.buildRawUrl: rewrite the human-facing URL
{org}/{project}/_git/{repo}?path=...&version=GB{ref} into the API URL
{org}/{project}/_apis/git/repositories/{repo}/items?path=...&version={ref}.
The try/catch around the body rewraps the validation throw into
an Error whose message starts with "Incorrect url:"; `new URL(target)`
parse failures are not modelled because the input arrives already
structured. -/
def AzureUrlReader.buildRawUrl (target : Url) : Except String Url :=
  let segs := jsSplit '/' target.pathname
  let path := (target.getParam "path").getD ""
  let ref := (target.getParam "version").map jsSubstr2
  if azureUrlInvalid target segs path ref then
    .error ("Incorrect url: " ++ target.toString ++
      ", Error: Wrong Azure Devops URL or Invalid file path")
  else
    .ok { target with
      pathname := jsJoin "/"
        [(segs[0]?).getD "", (segs[1]?).getD "", (segs[2]?).getD "",
          "_apis", "git", "repositories", (segs[4]?).getD "", "items"],
      searchParams :=
        [("path", path)] ++
          (match ref with
            | some r => if r == "" then [] else [("version", r)]
            | none => []),
      protocol := "https" }

/-- Bytes with a leading UTF-8 byte-order mark removed, as the WHATWG
UTF-8 decode hook used by `response.text()` does. -/
def stripBOM : List Nat → List Nat
  | 0xEF :: 0xBB :: 0xBF :: rest => rest
  | l => l

/-- Continuation byte test for the UTF-8 decoder. -/
def isCont (b : Nat) : Bool := 0x80 ≤ b && b ≤ 0xBF

/-- Lower bound of the first continuation byte after a three-byte lead. -/
def cont3Lo (b : Nat) : Nat := if b = 0xE0 then 0xA0 else 0x80

/-- Upper bound of the first continuation byte after a three-byte lead. -/
def cont3Hi (b : Nat) : Nat := if b = 0xED then 0x9F else 0xBF

/-- Lower bound of the first continuation byte after a four-byte lead. -/
def cont4Lo (b : Nat) : Nat := if b = 0xF0 then 0x90 else 0x80

/-- Upper bound of the first continuation byte after a four-byte lead. -/
def cont4Hi (b : Nat) : Nat := if b = 0xF4 then 0x8F else 0xBF

/-- WHATWG UTF-8 decoder with replacement, producing the scalar values
of `response.text()`: malformed input emits U+FFFD and resumes at the
offending byte; a truncated sequence at end of input emits one U+FFFD. -/
def utf8DecodeLoop : List Nat → List Nat
  | [] => []
  | b :: rest =>
    if b ≤ 0x7F then b :: utf8DecodeLoop rest
    else if 0xC2 ≤ b ∧ b ≤ 0xDF then
      match rest with
      | [] => [0xFFFD]
      | b1 :: rest1 =>
        if isCont b1 then
          ((b - 0xC0) * 64 + (b1 - 0x80)) :: utf8DecodeLoop rest1
        else 0xFFFD :: utf8DecodeLoop (b1 :: rest1)
    else if 0xE0 ≤ b ∧ b ≤ 0xEF then
      match rest with
      | [] => [0xFFFD]
      | b1 :: rest1 =>
        if cont3Lo b ≤ b1 ∧ b1 ≤ cont3Hi b then
          match rest1 with
          | [] => [0xFFFD]
          | b2 :: rest2 =>
            if isCont b2 then
              ((b - 0xE0) * 4096 + (b1 - 0x80) * 64 + (b2 - 0x80)) ::
                utf8DecodeLoop rest2
            else 0xFFFD :: utf8DecodeLoop (b2 :: rest2)
        else 0xFFFD :: utf8DecodeLoop (b1 :: rest1)
    else if 0xF0 ≤ b ∧ b ≤ 0xF4 then
      match rest with
      | [] => [0xFFFD]
      | b1 :: rest1 =>
        if cont4Lo b ≤ b1 ∧ b1 ≤ cont4Hi b then
          match rest1 with
          | [] => [0xFFFD]
          | b2 :: rest2 =>
            if isCont b2 then
              match rest2 with
              | [] => [0xFFFD]
              | b3 :: rest3 =>
                if isCont b3 then
                  ((b - 0xF0) * 262144 + (b1 - 0x80) * 4096 +
                      (b2 - 0x80) * 64 + (b3 - 0x80)) ::
                    utf8DecodeLoop rest3
                else 0xFFFD :: utf8DecodeLoop (b3 :: rest3)
            else 0xFFFD :: utf8DecodeLoop (b2 :: rest2)
        else 0xFFFD :: utf8DecodeLoop (b1 :: rest1)
    else 0xFFFD :: utf8DecodeLoop rest

/-- UTF-8 encoding of one scalar value, as `Buffer.from(str)` performs
it byte by byte. -/
def utf8EncodeCp (c : Nat) : List Nat :=
  if c < 128 then [c]
  else if c < 2048 then [0xC0 + c / 64, 0x80 + c % 64]
  else if c < 65536 then
    [0xE0 + c / 4096, 0x80 + c / 64 % 64, 0x80 + c % 64]
  else
    [0xF0 + c / 262144, 0x80 + c / 4096 % 64, 0x80 + c / 64 % 64,
      0x80 + c % 64]

/-- Concatenation of a list of byte lists. -/
def flatBytes : List (List Nat) → List Nat
  | [] => []
  | l :: rest => l ++ flatBytes rest

/-- The byte transformation the source applies to a successful body:
`Buffer.from(await response.text())`, i.e. UTF-8 decode with
replacement (BOM stripped) followed by UTF-8 re-encoding. -/
def textReencode (body : List Nat) : List Nat :=
  flatBytes ((utf8DecodeLoop (stripBOM body)).map utf8EncodeCp)

/-- Result of AzureUrlReader.read: the returned bytes or the thrown
error, together with the URL the single GET was issued against (none
when no network call happened). -/
structure ReadResult where
  outcome : Except ReadError (List Nat)
  fetched : Option Url

/-- Message built by AzureUrlReader.read for an HTTP-status failure. -/
def readMessage (url builtUrl : Url) (response : HttpResponse) : String :=
  url.toString ++ " could not be read as " ++ builtUrl.toString ++ ", " ++
    Nat.repr response.status ++ " " ++ response.statusText

/-- AzureUrlReader.read: derive the API URL, issue the GET, return the
body for a 2xx status other than 203, map 404 to NotFoundError and
every other failure to a plain Error. -/
def AzureUrlReader.read (doFetch : Url → FetchOutcome) (url : Url) : ReadResult :=
  match AzureUrlReader.buildRawUrl url with
  | .error msg => { outcome := .error (.generic msg), fetched := none }
  | .ok builtUrl =>
    match doFetch builtUrl with
    | .failure e =>
      { outcome := .error (.generic ("Unable to read " ++ url.toString ++ ", " ++ e)),
        fetched := some builtUrl }
    | .success response =>
      if response.ok && response.status != 203 then
        { outcome := .ok (textReencode response.body), fetched := some builtUrl }
      else
        let message := readMessage url builtUrl response
        if response.status == 404 then
          { outcome := .error (.notFound message), fetched := some builtUrl }
        else
          { outcome := .error (.generic message), fetched := some builtUrl }

/-- Components produced by the external git-url-parse collaborator for
a tree URL, exactly the fields `getDownloadUrl` destructures.  A URL
that carries no file path gets the empty (falsy) `filepath`. -/
structure GitUri where
  name : String
  owner : String
  organization : String
  protocol : String
  resource : String
  filepath : String
deriving DecidableEq, Repr

/-- Uppercase hexadecimal digit for percent-encoding. -/
def percentHexDigit (n : Nat) : Char :=
  if n < 10 then Char.ofNat (48 + n) else Char.ofNat (55 + n)

/-- Percent-encoding of one byte, uppercase, as JS encodeURIComponent
emits it. -/
def percentByte (b : Nat) : List Char :=
  ['%', percentHexDigit (b / 16), percentHexDigit (b % 16)]

/-- Characters JS encodeURIComponent leaves unescaped: alphanumerics
and - _ . ! ~ * ( ) plus the apostrophe (code 39). -/
def uriUnreserved (c : Char) : Bool :=
  c.isAlpha || c.isDigit || c = '-' || c = '_' || c = '.' || c = '!' ||
    c = '~' || c = '*' || c = '(' || c = ')' || c = Char.ofNat 39

/-- Concatenation of a list of character lists. -/
def flatChars : List (List Char) → List Char
  | [] => []
  | l :: rest => l ++ flatChars rest

/-- JS encodeURIComponent: unreserved characters pass through, every
other character is UTF-8 encoded and each byte percent-escaped. -/
def encodeURIComponent (s : String) : String :=
  String.mk (flatChars (s.data.map (fun c =>
    if uriUnreserved c then [c]
    else flatChars ((utf8EncodeCp c.toNat).map percentByte))))

/-- getDownloadUrl: the bulk-download API URL for a tree read, built
from the components git-url-parse extracted.  The string handed to
`new URL(...)` is returned directly; the constructor's normalization is
not modelled. -/
def getDownloadUrl (g : GitUri) : String :=
  let scopePath := if g.filepath != "" then
    "&scopePath=" ++ encodeURIComponent g.filepath else ""
  g.protocol ++ "://" ++ g.resource ++ "/" ++ g.organization ++ "/" ++
    g.owner ++ "/_apis/git/repositories/" ++ g.name ++
    "/items?recursionLevel=full&download=true&api-version=6.0" ++ scopePath

/-- Message built by AzureUrlReader.readTree for a non-ok response. -/
def treeMessage (urlStr : String) (response : HttpResponse) : String :=
  "Failed to read tree from " ++ urlStr ++ ", " ++
    Nat.repr response.status ++ " " ++ response.statusText

/-- AzureUrlReader.readTree: fetch the bulk-download URL; on a non-ok
status map 404 to NotFoundError and the rest to a plain Error; on an ok
status hand the body stream to treeResponseFactory.fromZipArchive.  The
`.ok` payload is exactly the byte stream handed to that collaborator;
the original URL string and its git-url-parse components arrive
separately because the parser is an external collaborator. -/
def AzureUrlReader.readTree (doFetch : String → HttpResponse) (urlStr : String)
    (g : GitUri) : Except ReadError (List Nat) :=
  let response := doFetch (getDownloadUrl g)
  if !response.ok then
    let message := treeMessage urlStr response
    if response.status == 404 then .error (.notFound message)
    else .error (.generic message)
  else .ok response.body

/-- Provider configuration entry as readAzureIntegrationConfigs yields
it: host plus optional token. -/
structure AzureIntegrationConfig where
  host : String
  token : Option String
deriving DecidableEq

/-- Constructor of AzureUrlReader: throws unless the host is the single
supported value. -/
def azureReaderNew (options : AzureIntegrationConfig) :
    Except String AzureIntegrationConfig :=
  if options.host != "dev.azure.com" then
    .error ("Azure integration currently only supports dev.azure.com, tried to use host " ++ options.host)
  else .ok options

/-- AzureUrlReader.factory: map each configuration entry to a reader
paired with its selection predicate comparing `url.host` to the
configured host; a constructor throw aborts the whole map, JS-style
left to right. -/
def AzureUrlReader.factory : List AzureIntegrationConfig →
    Except String (List (AzureIntegrationConfig × (Url → Bool)))
  | [] => .ok []
  | options :: rest =>
    match azureReaderNew options with
    | .error e => .error e
    | .ok reader =>
      match factory rest with
      | .error e => .error e
      | .ok tail =>
        .ok ((reader, fun url => url.host == options.host) :: tail)

/-- Human-facing single-file URL https://dev.azure.com/{org}/{proj}/_git/{repo}
with the given query parameters, the input family the single-file
claims quantify over. -/
def humanAzureUrl (org proj repo : String)
    (params : List (String × String)) : Url :=
  { protocol := "https", hostname := "dev.azure.com", port := "",
    pathname := "/" ++ org ++ "/" ++ proj ++ "/_git/" ++ repo,
    searchParams := params }

/-- Substring containment at the character level, used to state which
pieces of data an error message carries. -/
def containsStr (s pat : String) : Prop :=
  pat.data <:+: s.data

instance (s pat : String) : Decidable (containsStr s pat) :=
  inferInstanceAs (Decidable (pat.data <:+: s.data))

/-- Sample well-formed human-facing single-file URL
https://dev.azure.com/a/b/_git/c?path=/d&version=GBmain. -/
def sampleUrl : Url :=
  humanAzureUrl "a" "b" "c" [("path", "/d"), ("version", "GBmain")]

/-- API URL the source derives from sampleUrl. -/
def sampleApiUrl : Url :=
  { protocol := "https", hostname := "dev.azure.com", port := "",
    pathname := "/a/b/_apis/git/repositories/c/items",
    searchParams := [("path", "/d"), ("version", "main")] }

/-- Sample parsed components of a tree URL that carries no file path. -/
def sampleGitUri : GitUri :=
  { name := "repo", owner := "proj", organization := "org",
    protocol := "https", resource := "dev.azure.com", filepath := "" }

/-- HTTP 203 response carrying the provider's sign-in page bytes. -/
def tree203Response : HttpResponse :=
  { status := 203, statusText := "Non-Authoritative Information",
    body := [9, 9, 9] }

/-- Concrete 500 response used by message-content witnesses. -/
def resp500 : HttpResponse :=
  { status := 500, statusText := "Internal Server Error", body := [] }

/-- Concrete tree URL string used by the readTree fixtures. -/
def treeUrlStr : String := "https://dev.azure.com/org/proj/_git/repo"

/-- Spec-side rendering of the bulk-download URL, written from the
claim's words for the refinement comparison:
{protocol}://{host}/{org}/{project}/_apis/git/repositories/{repo}/items
?recursionLevel=full&download=true&api-version=6.0 with
&scopePath={URL-encoded file path} appended exactly when a file path is
carried. -/
def specTreeDownloadUrl (g : GitUri) : String :=
  g.protocol ++ "://" ++ g.resource ++ "/" ++ g.organization ++ "/" ++
    g.owner ++ "/_apis/git/repositories/" ++ g.name ++
    "/items?recursionLevel=full&download=true&api-version=6.0" ++
    (if g.filepath ≠ "" then "&scopePath=" ++ encodeURIComponent g.filepath
      else "")

/-- Two configuration entries for the supported host, with and without
a token. -/
def configsPair : List AzureIntegrationConfig :=
  [{ host := "dev.azure.com", token := none },
    { host := "dev.azure.com", token := some "t" }]

/-- Entry list the factory produces for configsPair. -/
def entriesPair : List (AzureIntegrationConfig × (Url → Bool)) :=
  [({ host := "dev.azure.com", token := none },
      fun url => url.host == "dev.azure.com"),
    ({ host := "dev.azure.com", token := some "t" },
      fun url => url.host == "dev.azure.com")]

/-- Fetch oracle returning a fixed 200 response with body byte 104. -/
def ok200Fetch : Url → FetchOutcome :=
  fun _ => .success { status := 200, statusText := "OK", body := [104] }

/-- Derived API URL for org O, project P, repo R, path F and ref X. -/
def apiUrlFor (O P R F X : String) : Url :=
  { protocol := "https", hostname := "dev.azure.com", port := "",
    pathname := "/" ++ O ++ "/" ++ P ++ "/_apis/git/repositories/" ++ R ++ "/items",
    searchParams := [("path", F), ("version", X)] }

/-- Derived API URL when the source URL carried no version parameter. -/
def apiUrlNoVersionFor (O P R F : String) : Url :=
  { protocol := "https", hostname := "dev.azure.com", port := "",
    pathname := "/" ++ O ++ "/" ++ P ++ "/_apis/git/repositories/" ++ R ++ "/items",
    searchParams := [("path", F)] }

/-- Well-formed single-file URL whose version parameter is absent. -/
def noVersionUrl : Url := humanAzureUrl "a" "b" "c" [("path", "/d")]

/-- Well-formed single-file URL carrying an explicit non-default port,
so that url.host differs from url.hostname. -/
def portUrl : Url :=
  { protocol := "https", hostname := "dev.azure.com", port := "8080",
    pathname := "/a/b/_git/c",
    searchParams := [("path", "/d"), ("version", "GBmain")] }

/-- API URL derived from portUrl: the port is preserved. -/
def portApiUrl : Url :=
  { protocol := "https", hostname := "dev.azure.com", port := "8080",
    pathname := "/a/b/_apis/git/repositories/c/items",
    searchParams := [("path", "/d"), ("version", "main")] }

/-- Source URL whose path query parameter is missing entirely. -/
def noPathUrl : Url := humanAzureUrl "a" "b" "c" [("version", "GBmain")]

/-! ## Theorems -/

/-- Splitting a separator-free list yields exactly one field. -/
theorem splitListChar_not_mem {sep : Char} {a : List Char} (h : sep ∉ a) :
    splitListChar sep a = [a] := by
  induction a with
  | nil => rfl
  | cons c t ih =>
    simp only [List.mem_cons, not_or] at h
    simp only [splitListChar, if_neg (Ne.symm h.1), ih h.2]

/-- Splitting at the first separator peels off the separator-free
prefix as one field. -/
theorem splitListChar_append {sep : Char} {a : List Char} (r : List Char)
    (h : sep ∉ a) :
    splitListChar sep (a ++ sep :: r) = a :: splitListChar sep r := by
  induction a with
  | nil => simp [splitListChar]
  | cons c t ih =>
    simp only [List.mem_cons, not_or] at h
    simp only [List.cons_append, splitListChar, if_neg (Ne.symm h.1),
      List.append_eq]
    rw [ih h.2]

/-- A string whose character list starts with a cons is not empty. -/
theorem ne_empty_of_data_cons {s : String} {c : Char} {l : List Char}
    (h : s.data = c :: l) : s ≠ "" := by
  intro he
  rw [he] at h
  simp at h

/-- Containment witness: a pattern sandwiched between two strings is
contained in their concatenation. -/
theorem containsStr_intro (a b : String) {pat s : String}
    (h : a ++ pat ++ b = s) : containsStr s pat := by
  refine ⟨a.data, b.data, ?_⟩
  rw [← h]
  simp [String.data_append, List.append_assoc]

/-- C2: the claim says a 2xx (non-203) response body is returned
unchanged for every byte sequence, including non-UTF-8 binary content.
The code instead computes Buffer.from(await response.text()), a UTF-8
decode/re-encode round trip: on the body [0xFF] (not valid UTF-8) it
returns the replacement-character encoding [0xEF, 0xBF, 0xBD], not the
original byte.  This evaluates the embedded read at that failing
input. -/
theorem C2_read_alters_binary_body :
    (AzureUrlReader.read (fun _ => .success { status := 200, statusText := "OK", body := [255] })
        sampleUrl).outcome = .ok [239, 191, 189] ∧
      ([239, 191, 189] : List Nat) ≠ [255] :=
  ⟨rfl, by decide⟩

/-- C3: a response with status 203 (an HTTP success code) makes read
throw a plain generic Error carrying the status message, never
returning the body, and not a NotFoundError. -/
theorem C3_read_203_generic_error
    (doFetch : Url → FetchOutcome) (url builtUrl : Url)
    (response : HttpResponse)
    (hb : AzureUrlReader.buildRawUrl url = .ok builtUrl)
    (hf : doFetch builtUrl = .success response)
    (hs : response.status = 203) :
    (AzureUrlReader.read doFetch url).outcome =
      .error (.generic (readMessage url builtUrl response)) := by
  simp [AzureUrlReader.read, hb, hf, hs, HttpResponse.ok]

/-- Witness for C3 at a concrete URL and a concrete 203 response. -/
theorem C3_witness :
    (AzureUrlReader.read (fun _ => .success { status := 203, statusText := "NA", body := [7] })
        sampleUrl).outcome =
      .error (.generic (readMessage sampleUrl sampleApiUrl
        { status := 203, statusText := "NA", body := [7] })) :=
  C3_read_203_generic_error _ sampleUrl sampleApiUrl _ rfl rfl rfl

/-- C5: when the response of read is non-success (not ok), a 404 status
yields a NotFoundError and every other status yields a plain generic
Error, both carrying the status message. -/
theorem C5_read_status_error_mapping
    (doFetch : Url → FetchOutcome) (url builtUrl : Url)
    (response : HttpResponse)
    (hb : AzureUrlReader.buildRawUrl url = .ok builtUrl)
    (hf : doFetch builtUrl = .success response)
    (hok : response.ok = false) :
    (response.status = 404 →
      (AzureUrlReader.read doFetch url).outcome =
        .error (.notFound (readMessage url builtUrl response))) ∧
    (response.status ≠ 404 →
      (AzureUrlReader.read doFetch url).outcome =
        .error (.generic (readMessage url builtUrl response))) := by
  constructor <;> intro h4 <;> simp [AzureUrlReader.read, hb, hf, hok, h4]

/-- Witness for C5: a 404 response gives NotFoundError and a 500
response gives a generic Error, at a concrete URL. -/
theorem C5_witness :
    (AzureUrlReader.read (fun _ => .success { status := 404, statusText := "Not Found", body := [] })
        sampleUrl).outcome =
      .error (.notFound (readMessage sampleUrl sampleApiUrl
        { status := 404, statusText := "Not Found", body := [] })) ∧
    (AzureUrlReader.read (fun _ => .success { status := 500, statusText := "Internal Server Error", body := [] })
        sampleUrl).outcome =
      .error (.generic (readMessage sampleUrl sampleApiUrl
        { status := 500, statusText := "Internal Server Error", body := [] })) :=
  ⟨(C5_read_status_error_mapping _ sampleUrl sampleApiUrl _ rfl rfl
      (by decide)).1 rfl,
    (C5_read_status_error_mapping _ sampleUrl sampleApiUrl _ rfl rfl
      (by decide)).2 (by decide)⟩

/-- C4 counterexample: a 203 response is an HTTP success, so AzureUrlReader.readTree,
which only tests response.ok, does not fail there: it hands exactly the
response body bytes to the archive-extraction collaborator, contrary to
the claim that any non-success response, including 203, fails. -/
theorem C4_counterexample :
    AzureUrlReader.readTree (fun _ => tree203Response)
      "https://dev.azure.com/org/proj/_git/repo" sampleGitUri = .ok [9, 9, 9] :=
  rfl

/-- C4 (amended): for every AzureUrlReader.readTree call whose HTTP response has a
status outside the 2xx range, AzureUrlReader.readTree fails with the same mapping as
read, 404 to NotFoundError and otherwise a generic Error, and never
hands the body to the collaborator; a 203 response counts as success
for AzureUrlReader.readTree (see the counterexample). -/
theorem C4_readTree_nonOk_mapping
    (doFetch : String → HttpResponse) (urlStr : String) (g : GitUri)
    (hok : (doFetch (getDownloadUrl g)).ok = false) :
    ((doFetch (getDownloadUrl g)).status = 404 →
      AzureUrlReader.readTree doFetch urlStr g =
        .error (.notFound (treeMessage urlStr (doFetch (getDownloadUrl g))))) ∧
    ((doFetch (getDownloadUrl g)).status ≠ 404 →
      AzureUrlReader.readTree doFetch urlStr g =
        .error (.generic (treeMessage urlStr (doFetch (getDownloadUrl g))))) := by
  constructor <;> intro h4 <;> simp [AzureUrlReader.readTree, hok, h4]

/-- Witness for C4 at concrete 404 and 500 responses. -/
theorem C4_witness :
    AzureUrlReader.readTree (fun _ => { status := 404, statusText := "Not Found", body := [] })
        "https://dev.azure.com/org/proj/_git/repo" sampleGitUri =
      .error (.notFound (treeMessage "https://dev.azure.com/org/proj/_git/repo"
        { status := 404, statusText := "Not Found", body := [] })) ∧
    AzureUrlReader.readTree (fun _ => { status := 500, statusText := "Internal Server Error", body := [] })
        "https://dev.azure.com/org/proj/_git/repo" sampleGitUri =
      .error (.generic (treeMessage "https://dev.azure.com/org/proj/_git/repo"
        { status := 500, statusText := "Internal Server Error", body := [] })) :=
  ⟨(C4_readTree_nonOk_mapping _ _ sampleGitUri (by decide)).1 rfl,
    (C4_readTree_nonOk_mapping _ _ sampleGitUri (by decide)).2 (by decide)⟩

set_option maxRecDepth 4000 in
/-- C6 counterexample: the error readTree throws on a 500 response
names the original URL, the status code and the status text, but not
the derived bulk-download URL: the derived URL for the sample tree URL
is not contained in the thrown message, so the claim that every
HTTP-status error of read and readTree carries the derived API URL is
false on the code. -/
theorem C6_counterexample :
    AzureUrlReader.readTree (fun _ => resp500) treeUrlStr sampleGitUri =
      .error (.generic "Failed to read tree from https://dev.azure.com/org/proj/_git/repo, 500 Internal Server Error") ∧
    ¬ containsStr "Failed to read tree from https://dev.azure.com/org/proj/_git/repo, 500 Internal Server Error"
      (getDownloadUrl sampleGitUri) :=
  ⟨rfl, by decide⟩

/-- C6 (amended): every HTTP-status error thrown by read carries in its
message the original URL, the derived API URL, the numeric status code
and the status text; every HTTP-status error thrown by readTree carries
the original URL, the numeric status code and the status text (but not
the derived download URL, see the counterexample). -/
theorem C6_error_message_contents
    (doFetch : Url → FetchOutcome) (url builtUrl : Url)
    (response : HttpResponse)
    (treeFetch : String → HttpResponse) (urlStr : String) (g : GitUri)
    (hb : AzureUrlReader.buildRawUrl url = .ok builtUrl)
    (hf : doFetch builtUrl = .success response)
    (hcond : (response.ok && response.status != 203) = false)
    (htok : (treeFetch (getDownloadUrl g)).ok = false) :
    (∃ e, (AzureUrlReader.read doFetch url).outcome = .error e ∧
      containsStr e.message url.toString ∧
      containsStr e.message builtUrl.toString ∧
      containsStr e.message (Nat.repr response.status) ∧
      containsStr e.message response.statusText) ∧
    (∃ e, AzureUrlReader.readTree treeFetch urlStr g = .error e ∧
      containsStr e.message urlStr ∧
      containsStr e.message (Nat.repr (treeFetch (getDownloadUrl g)).status) ∧
      containsStr e.message (treeFetch (getDownloadUrl g)).statusText) := by
  constructor
  · refine ⟨if response.status == 404 then
        .notFound (readMessage url builtUrl response)
      else .generic (readMessage url builtUrl response), ?_, ?_, ?_, ?_, ?_⟩
    · by_cases h4 : response.status = 404
      · have hok : response.ok = false := by
          rw [h4] at hcond
          simpa using hcond
        simp [AzureUrlReader.read, hb, hf, hok, h4]
      · simp [AzureUrlReader.read, hb, hf, hcond, h4]
    all_goals
      have hm : (if response.status == 404 then
          ReadError.notFound (readMessage url builtUrl response)
        else ReadError.generic (readMessage url builtUrl response)).message =
          readMessage url builtUrl response := by
        by_cases h4 : response.status = 404 <;> simp [h4, ReadError.message]
    · rw [hm]
      exact containsStr_intro ""
        (" could not be read as " ++ builtUrl.toString ++ ", " ++
          Nat.repr response.status ++ " " ++ response.statusText)
        (by apply String.ext
            simp [readMessage, String.data_append, List.append_assoc])
    · rw [hm]
      exact containsStr_intro (url.toString ++ " could not be read as ")
        (", " ++ Nat.repr response.status ++ " " ++ response.statusText)
        (by apply String.ext
            simp [readMessage, String.data_append, List.append_assoc])
    · rw [hm]
      exact containsStr_intro
        (url.toString ++ " could not be read as " ++ builtUrl.toString ++ ", ")
        (" " ++ response.statusText)
        (by apply String.ext
            simp [readMessage, String.data_append, List.append_assoc])
    · rw [hm]
      exact containsStr_intro
        (url.toString ++ " could not be read as " ++ builtUrl.toString ++
          ", " ++ Nat.repr response.status ++ " ") ""
        (by apply String.ext
            simp [readMessage, String.data_append, List.append_assoc])
  · refine ⟨if (treeFetch (getDownloadUrl g)).status == 404 then
        .notFound (treeMessage urlStr (treeFetch (getDownloadUrl g)))
      else .generic (treeMessage urlStr (treeFetch (getDownloadUrl g))), ?_, ?_, ?_, ?_⟩
    · by_cases h4 : (treeFetch (getDownloadUrl g)).status = 404 <;>
        simp [AzureUrlReader.readTree, htok, h4]
    all_goals
      have hm : (if (treeFetch (getDownloadUrl g)).status == 404 then
          ReadError.notFound (treeMessage urlStr (treeFetch (getDownloadUrl g)))
        else ReadError.generic (treeMessage urlStr (treeFetch (getDownloadUrl g)))).message =
          treeMessage urlStr (treeFetch (getDownloadUrl g)) := by
        by_cases h4 : (treeFetch (getDownloadUrl g)).status = 404 <;>
          simp [h4, ReadError.message]
    · rw [hm]
      exact containsStr_intro "Failed to read tree from "
        (", " ++ Nat.repr (treeFetch (getDownloadUrl g)).status ++ " " ++
          (treeFetch (getDownloadUrl g)).statusText)
        (by apply String.ext
            simp [treeMessage, String.data_append, List.append_assoc])
    · rw [hm]
      exact containsStr_intro ("Failed to read tree from " ++ urlStr ++ ", ")
        (" " ++ (treeFetch (getDownloadUrl g)).statusText)
        (by apply String.ext
            simp [treeMessage, String.data_append, List.append_assoc])
    · rw [hm]
      exact containsStr_intro
        ("Failed to read tree from " ++ urlStr ++ ", " ++
          Nat.repr (treeFetch (getDownloadUrl g)).status ++ " ") ""
        (by apply String.ext
            simp [treeMessage, String.data_append, List.append_assoc])

/-- Witness for C6 at a concrete URL, tree URL and 500 response: the
read message contains both URLs, the code and the text; the readTree
message contains the original URL, the code and the text. -/
theorem C6_witness :
    containsStr (readMessage sampleUrl sampleApiUrl resp500) sampleUrl.toString ∧
    containsStr (readMessage sampleUrl sampleApiUrl resp500) sampleApiUrl.toString ∧
    containsStr (readMessage sampleUrl sampleApiUrl resp500) (Nat.repr 500) ∧
    containsStr (readMessage sampleUrl sampleApiUrl resp500) "Internal Server Error" ∧
    containsStr (treeMessage treeUrlStr resp500) treeUrlStr ∧
    containsStr (treeMessage treeUrlStr resp500) (Nat.repr 500) ∧
    containsStr (treeMessage treeUrlStr resp500) "Internal Server Error" := by
  obtain ⟨hr, ht⟩ := C6_error_message_contents (fun _ => .success resp500)
    sampleUrl sampleApiUrl resp500 (fun _ => resp500) treeUrlStr sampleGitUri
    rfl rfl (by decide) (by decide)
  obtain ⟨e, he, h1, h2, h3, h4⟩ := hr
  have hev : (AzureUrlReader.read (fun _ => .success resp500) sampleUrl).outcome =
      .error (.generic (readMessage sampleUrl sampleApiUrl resp500)) := rfl
  rw [hev] at he
  injection he with he
  subst he
  obtain ⟨e2, he2, g1, g2, g3⟩ := ht
  have hev2 : AzureUrlReader.readTree (fun _ => resp500) treeUrlStr sampleGitUri =
      .error (.generic (treeMessage treeUrlStr resp500)) := rfl
  rw [hev2] at he2
  injection he2 with he2
  subst he2
  exact ⟨h1, h2, h3, h4, g1, g2, g3⟩

/-- C9: for every tree URL the derived bulk-download URL equals the
spec form, with scopePath appended exactly when a file path is carried;
concretely, path docs/index.md is appended URL-encoded as
scopePath=docs%2Findex.md and an absent path omits scopePath
entirely. -/
theorem C9_download_url_matches_spec :
    (∀ g : GitUri, getDownloadUrl g = specTreeDownloadUrl g) ∧
    encodeURIComponent "docs/index.md" = "docs%2Findex.md" ∧
    getDownloadUrl { sampleGitUri with filepath := "docs/index.md" } =
      "https://dev.azure.com/org/proj/_apis/git/repositories/repo/items?recursionLevel=full&download=true&api-version=6.0&scopePath=docs%2Findex.md" ∧
    getDownloadUrl sampleGitUri =
      "https://dev.azure.com/org/proj/_apis/git/repositories/repo/items?recursionLevel=full&download=true&api-version=6.0" := by
  refine ⟨fun g => ?_, rfl, rfl, rfl⟩
  by_cases h : g.filepath = "" <;> simp [getDownloadUrl, specTreeDownloadUrl, h]

/-- C10: an entry list produced by the factory has one reader per
configuration entry, and the i-th entry's selection predicate holds for
a URL exactly when the URL's host string equals the i-th configured
host string (string equality, hence case-sensitive), independently for
every index. -/
theorem C10_predicate_host_match :
    ∀ (configs : List AzureIntegrationConfig)
      (entries : List (AzureIntegrationConfig × (Url → Bool))),
      AzureUrlReader.factory configs = .ok entries →
      entries.length = configs.length ∧
      ∀ (i : Nat) (hi : i < entries.length) (hci : i < configs.length)
        (url : Url),
        ((entries.get ⟨i, hi⟩).2 url = true ↔
          url.host = (configs.get ⟨i, hci⟩).host) := by
  intro configs
  induction configs with
  | nil =>
    intro entries h
    simp only [AzureUrlReader.factory] at h
    injection h with h
    subst h
    exact ⟨rfl, fun i hi => absurd hi (by simp)⟩
  | cons options rest ih =>
    intro entries h
    simp only [AzureUrlReader.factory] at h
    cases hn : azureReaderNew options with
    | error e =>
      rw [hn] at h
      simp at h
    | ok reader =>
      rw [hn] at h
      cases ht : AzureUrlReader.factory rest with
      | error e =>
        rw [ht] at h
        simp at h
      | ok tail =>
        rw [ht] at h
        injection h with h
        subst h
        obtain ⟨hlen, hpt⟩ := ih tail ht
        refine ⟨by simp [hlen], ?_⟩
        intro i hi hci url
        cases i with
        | zero => simp [List.get]
        | succ n =>
          exact hpt n (Nat.lt_of_succ_lt_succ hi)
            (Nat.lt_of_succ_lt_succ hci) url

/-- Witness for C10 at the second of two configured entries and a
concrete URL. -/
theorem C10_witness :
    ((entriesPair.get ⟨1, by decide⟩).2 sampleUrl = true ↔
      sampleUrl.host = "dev.azure.com") :=
  (C10_predicate_host_match configsPair entriesPair rfl).2 1
    (by decide) (by decide) sampleUrl

/-- Splitting the human-facing pathname yields exactly the five
expected segments when org, project and repo are slash-free. -/
theorem jsSplit_human (O P R : String)
    (hO : ('/' : Char) ∉ O.data) (hP : ('/' : Char) ∉ P.data)
    (hR : ('/' : Char) ∉ R.data) :
    jsSplit '/' ("/" ++ O ++ "/" ++ P ++ "/_git/" ++ R) = ["", O, P, "_git", R] := by
  have hdata : ("/" ++ O ++ "/" ++ P ++ "/_git/" ++ R).data =
      '/' :: (O.data ++ '/' :: (P.data ++ '/' :: (['_','g','i','t'] ++ '/' :: R.data))) := by
    simp [String.data_append, List.append_assoc]
  unfold jsSplit
  rw [hdata]
  rw [show splitListChar '/' ('/' :: (O.data ++ '/' :: (P.data ++ '/' :: (['_','g','i','t'] ++ '/' :: R.data)))) = [] :: splitListChar '/' (O.data ++ '/' :: (P.data ++ '/' :: (['_','g','i','t'] ++ '/' :: R.data))) from by simp [splitListChar]]
  rw [splitListChar_append _ hO, splitListChar_append _ hP,
    splitListChar_append _ (by decide), splitListChar_not_mem hR]
  rfl

/-- Joining the rewritten segments produces the API pathname. -/
theorem jsJoin_api_segments (O P R : String) :
    jsJoin "/" ["", O, P, "_apis", "git", "repositories", R, "items"] =
      "/" ++ O ++ "/" ++ P ++ "/_apis/git/repositories/" ++ R ++ "/items" := by
  apply String.ext
  simp only [jsJoin, String.data_append, List.append_assoc]
  rfl

/-- buildRawUrl on a well-formed human URL with a GB-prefixed version
parameter: validation passes and the URL is rewritten with the GB
prefix stripped from the ref. -/
theorem buildRawUrl_human_version (O P R F X : String)
    (hO1 : O ≠ "") (hP1 : P ≠ "") (hR1 : R ≠ "")
    (hF : F ≠ "") (hX : X ≠ "")
    (hO2 : ('/' : Char) ∉ O.data) (hP2 : ('/' : Char) ∉ P.data)
    (hR2 : ('/' : Char) ∉ R.data) :
    AzureUrlReader.buildRawUrl
        (humanAzureUrl O P R [("path", F), ("version", "GB" ++ X)]) =
      .ok (apiUrlFor O P R F X) := by
  have hsplit := jsSplit_human O P R hO2 hP2 hR2
  have hinv : azureUrlInvalid (humanAzureUrl O P R [("path", F), ("version", "GB" ++ X)])
      ["", O, P, "_git", R] F (some X) = false := by
    simp [azureUrlInvalid, humanAzureUrl, hO1, hP1, hR1, hF, hX]
  have hsub : jsSubstr2 ("GB" ++ X) = X := rfl
  simp [AzureUrlReader.buildRawUrl, humanAzureUrl, Url.getParam, hsplit, hinv, hX,
    jsJoin_api_segments, hsub, apiUrlFor]
  simpa [humanAzureUrl] using hinv

/-- buildRawUrl on a well-formed human URL with no version parameter:
validation still passes (undefined is not the empty string) and the
rewritten URL simply omits the version parameter. -/
theorem buildRawUrl_human_no_version (O P R F : String)
    (hO1 : O ≠ "") (hP1 : P ≠ "") (hR1 : R ≠ "") (hF : F ≠ "")
    (hO2 : ('/' : Char) ∉ O.data) (hP2 : ('/' : Char) ∉ P.data)
    (hR2 : ('/' : Char) ∉ R.data) :
    AzureUrlReader.buildRawUrl (humanAzureUrl O P R [("path", F)]) =
      .ok (apiUrlNoVersionFor O P R F) := by
  have hsplit := jsSplit_human O P R hO2 hP2 hR2
  have hinv : azureUrlInvalid (humanAzureUrl O P R [("path", F)])
      ["", O, P, "_git", R] F none = false := by
    simp [azureUrlInvalid, humanAzureUrl, hO1, hP1, hR1, hF]
  simp [AzureUrlReader.buildRawUrl, humanAzureUrl, Url.getParam, hsplit, hinv,
    jsJoin_api_segments, apiUrlNoVersionFor]
  simpa [humanAzureUrl] using hinv

/-- Whenever URL translation succeeds, the single GET of read is issued
against exactly the derived URL, whatever the response. -/
theorem read_fetched_of_ok (doFetch : Url → FetchOutcome) (url builtUrl : Url)
    (hb : AzureUrlReader.buildRawUrl url = .ok builtUrl) :
    (AzureUrlReader.read doFetch url).fetched = some builtUrl := by
  simp only [AzureUrlReader.read, hb]
  cases doFetch builtUrl with
  | failure e => rfl
  | success r =>
    dsimp only
    split
    · rfl
    · split <;> rfl

/-- Query string of the derived API URL is never empty. -/
theorem searchString_api_ne (O P R F X : String) :
    (apiUrlFor O P R F X).searchString ≠ "" := by
  intro he
  have hd := congrArg String.data he
  simp [apiUrlFor, Url.searchString, jsJoin, String.data_append] at hd

/-- Serialization of the derived API URL. -/
theorem toString_api (O P R F X : String) :
    (apiUrlFor O P R F X).toString =
      "https://dev.azure.com/" ++ O ++ "/" ++ P ++ "/_apis/git/repositories/" ++ R ++
        "/items?path=" ++ F ++ "&version=" ++ X := by
  rw [Url.toString, if_neg (searchString_api_ne O P R F X)]
  apply String.ext
  simp [apiUrlFor, Url.host, Url.searchString, jsJoin, String.data_append,
    List.append_assoc]

/-- C1: for non-empty (slash-free) org, project, repo and non-empty
path and ref, read on the human-facing URL
https://dev.azure.com/O/P/_git/R?path=F&version=GBX derives exactly
https://dev.azure.com/O/P/_apis/git/repositories/R/items?path=F&version=X
(the GB prefix stripped) and issues its GET against that derived
URL. -/
theorem C1_read_derives_api_url (O P R F X : String)
    (hO1 : O ≠ "") (hP1 : P ≠ "") (hR1 : R ≠ "")
    (hF : F ≠ "") (hX : X ≠ "")
    (hO2 : ('/' : Char) ∉ O.data) (hP2 : ('/' : Char) ∉ P.data)
    (hR2 : ('/' : Char) ∉ R.data) :
    ∃ builtUrl,
      AzureUrlReader.buildRawUrl
          (humanAzureUrl O P R [("path", F), ("version", "GB" ++ X)]) =
        .ok builtUrl ∧
      builtUrl.toString = "https://dev.azure.com/" ++ O ++ "/" ++ P ++
        "/_apis/git/repositories/" ++ R ++ "/items?path=" ++ F ++
        "&version=" ++ X ∧
      ∀ doFetch, (AzureUrlReader.read doFetch
          (humanAzureUrl O P R [("path", F), ("version", "GB" ++ X)])).fetched =
        some builtUrl :=
  ⟨apiUrlFor O P R F X,
    buildRawUrl_human_version O P R F X hO1 hP1 hR1 hF hX hO2 hP2 hR2,
    toString_api O P R F X,
    fun doFetch => read_fetched_of_ok doFetch _ _
      (buildRawUrl_human_version O P R F X hO1 hP1 hR1 hF hX hO2 hP2 hR2)⟩

/-- Witness for C1 at org a, project b, repo c, path /d, ref main. -/
theorem C1_witness :
    AzureUrlReader.buildRawUrl sampleUrl = .ok sampleApiUrl ∧
    sampleApiUrl.toString =
      "https://dev.azure.com/a/b/_apis/git/repositories/c/items?path=/d&version=main" ∧
    (AzureUrlReader.read (fun _ => .success resp500) sampleUrl).fetched =
      some sampleApiUrl := by
  obtain ⟨b, hb, hts, hf⟩ := C1_read_derives_api_url "a" "b" "c" "/d" "main"
    (by decide) (by decide) (by decide) (by decide) (by decide)
    (by decide) (by decide) (by decide)
  have hb0 : AzureUrlReader.buildRawUrl sampleUrl = .ok sampleApiUrl := rfl
  have hbe : (Except.ok sampleApiUrl : Except String Url) = .ok b :=
    hb0.symm.trans hb
  injection hbe with hbe
  subst hbe
  exact ⟨hb0, hts, hf _⟩

/-- C7 counterexample: on a well-formed URL with no version parameter
at all, read does not fail with a translation error: the validation
passes (JS undefined is not the empty string), the GET is issued
against the derived version-less API URL, and the body is returned.
This refutes the claim that a missing ref causes a translation error
and no network call. -/
theorem C7_counterexample :
    (AzureUrlReader.read ok200Fetch noVersionUrl).fetched =
      some (apiUrlNoVersionFor "a" "b" "c" "/d") ∧
    (AzureUrlReader.read ok200Fetch noVersionUrl).outcome = .ok [104] :=
  ⟨rfl, rfl⟩

/-- C7 (amended): for every otherwise well-formed single-file URL whose
version parameter is absent entirely, read does not fail at
translation: buildRawUrl succeeds with an API URL that carries only the
path parameter and no version, and read performs its network call
against that URL. -/
theorem C7_missing_version_proceeds (O P R F : String)
    (hO1 : O ≠ "") (hP1 : P ≠ "") (hR1 : R ≠ "") (hF : F ≠ "")
    (hO2 : ('/' : Char) ∉ O.data) (hP2 : ('/' : Char) ∉ P.data)
    (hR2 : ('/' : Char) ∉ R.data) :
    ∃ builtUrl,
      AzureUrlReader.buildRawUrl (humanAzureUrl O P R [("path", F)]) =
        .ok builtUrl ∧
      builtUrl.getParam "version" = none ∧
      builtUrl.searchParams = [("path", F)] ∧
      ∀ doFetch,
        (AzureUrlReader.read doFetch (humanAzureUrl O P R [("path", F)])).fetched =
          some builtUrl :=
  ⟨apiUrlNoVersionFor O P R F,
    buildRawUrl_human_no_version O P R F hO1 hP1 hR1 hF hO2 hP2 hR2,
    rfl, rfl,
    fun doFetch => read_fetched_of_ok doFetch _ _
      (buildRawUrl_human_no_version O P R F hO1 hP1 hR1 hF hO2 hP2 hR2)⟩

/-- Witness for C7 at org a, project b, repo c, path /d. -/
theorem C7_witness :
    AzureUrlReader.buildRawUrl noVersionUrl =
      .ok (apiUrlNoVersionFor "a" "b" "c" "/d") ∧
    (apiUrlNoVersionFor "a" "b" "c" "/d").getParam "version" = none ∧
    (AzureUrlReader.read ok200Fetch noVersionUrl).fetched =
      some (apiUrlNoVersionFor "a" "b" "c" "/d") := by
  obtain ⟨b, hb, hv, hp, hf⟩ := C7_missing_version_proceeds "a" "b" "c" "/d"
    (by decide) (by decide) (by decide) (by decide)
    (by decide) (by decide) (by decide)
  have hb0 : AzureUrlReader.buildRawUrl noVersionUrl =
      .ok (apiUrlNoVersionFor "a" "b" "c" "/d") := rfl
  have hbe : (Except.ok (apiUrlNoVersionFor "a" "b" "c" "/d") : Except String Url) =
      .ok b := hb0.symm.trans hb
  injection hbe with hbe
  subst hbe
  exact ⟨hb0, hv, hf _⟩

/-- C8 counterexample: the code validates url.hostname, not url.host.
A URL with hostname dev.azure.com but explicit port 8080 has host
dev.azure.com:8080, different from dev.azure.com, yet no translation
error is thrown: the GET is issued and the body returned.  This
refutes the claim for the listed host condition. -/
theorem C8_counterexample :
    portUrl.host ≠ "dev.azure.com" ∧
    (AzureUrlReader.read ok200Fetch portUrl).fetched = some portApiUrl ∧
    (AzureUrlReader.read ok200Fetch portUrl).outcome = .ok [104] :=
  ⟨by decide, rfl, rfl⟩

/-- C8 (amended): for every source URL missing the path query
parameter, or whose version parameter is exactly GB, or whose hostname
(rather than host, see the counterexample) is not dev.azure.com, or
whose keyword path segment is not _git, or with an empty org, project
or repo segment, read throws the URL-translation error and fetch is
never invoked. -/
theorem C8_translation_error_before_fetch (u : Url) (doFetch : Url → FetchOutcome)
    (h : u.getParam "path" = none ∨ u.getParam "version" = some "GB" ∨
      u.hostname ≠ "dev.azure.com" ∨
      (jsSplit '/' u.pathname)[3]? ≠ some "_git" ∨
      (jsSplit '/' u.pathname)[1]? = some "" ∨
      (jsSplit '/' u.pathname)[2]? = some "" ∨
      (jsSplit '/' u.pathname)[4]? = some "") :
    (AzureUrlReader.read doFetch u).outcome =
      .error (.generic ("Incorrect url: " ++ u.toString ++
        ", Error: Wrong Azure Devops URL or Invalid file path")) ∧
    (AzureUrlReader.read doFetch u).fetched = none := by
  have hinv : azureUrlInvalid u (jsSplit '/' u.pathname)
      ((u.getParam "path").getD "") ((u.getParam "version").map jsSubstr2) = true := by
    rcases h with h | h | h | h | h | h | h <;>
      simp [azureUrlInvalid, h, jsSubstr2, bne_iff_ne]
  have hb : AzureUrlReader.buildRawUrl u = .error ("Incorrect url: " ++ u.toString ++
      ", Error: Wrong Azure Devops URL or Invalid file path") := by
    simp [AzureUrlReader.buildRawUrl, hinv]
  simp [AzureUrlReader.read, hb]

/-- Witness for C8 at a URL missing the path parameter. -/
theorem C8_witness :
    (AzureUrlReader.read ok200Fetch noPathUrl).outcome =
      .error (.generic ("Incorrect url: " ++ noPathUrl.toString ++
        ", Error: Wrong Azure Devops URL or Invalid file path")) ∧
    (AzureUrlReader.read ok200Fetch noPathUrl).fetched = none :=
  C8_translation_error_before_fetch noPathUrl ok200Fetch (Or.inl rfl)
